import Mathlib

/-!
Verification development for the splunk-hive-mind repository's tool sandbox
and orchestration loop.  The TypeScript sources are shallowly embedded:
pure string manipulation becomes Lean functions on `String`/`List Char`;
filesystem and process effects (stat, exec, readFile) become explicit
oracle parameters of type `Except String _` or total functions, so every
definition is executable.  Machine floating point (the human-readable size
formatter) is passed in as a function parameter, since no claim depends on
its output text.
-/

namespace SplunkHiveMind

/-- JavaScript `\s` (the whitespace class used by `String.trim`, `\s` in
regexes): tab through carriage return, space, NBSP, ogham space mark, the
general punctuation spaces, line/paragraph separators, narrow NBSP, medium
mathematical space, ideographic space, BOM. -/
def isJsWs (c : Char) : Bool :=
  let n := c.toNat
  (9 ≤ n && n ≤ 13) || n = 32 || n = 160 || n = 0x1680 ||
  (0x2000 ≤ n && n ≤ 0x200a) || n = 0x2028 || n = 0x2029 ||
  n = 0x202f || n = 0x205f || n = 0x3000 || n = 0xfeff

/-- JavaScript regex line terminators (the characters `.` does not match). -/
def isLineTerm (c : Char) : Bool :=
  let n := c.toNat
  n = 10 || n = 13 || n = 0x2028 || n = 0x2029

/-- `String.prototype.trim`: drop JS whitespace from both ends (list form). -/
def jsTrimList (l : List Char) : List Char :=
  ((l.dropWhile isJsWs).reverse.dropWhile isJsWs).reverse

/-- `String.prototype.trim`. -/
def jsTrim (s : String) : String :=
  String.mk (jsTrimList s.toList)

/-- `String.prototype.includes(pat)` / an unanchored literal regex:
`pat` occurs contiguously inside `s`. -/
def strContains (s pat : String) : Bool :=
  decide (pat.toList <:+: s.toList)

/-- `String.prototype.startsWith`. -/
def jsStartsWith (s pre : String) : Bool :=
  pre.toList.isPrefixOf s.toList

/-- `String.prototype.toLowerCase` (ASCII-faithful). -/
def jsToLower (s : String) : String :=
  String.mk (s.toList.map Char.toLower)

/-- Does the predicate hold at some suffix of the list (i.e. does the
anchored matcher `p` succeed at some position of the string)? -/
def anyPos (p : List Char → Bool) : List Char → Bool
  | [] => p []
  | c :: rest => p (c :: rest) || anyPos p rest

/-- The shell metacharacters of the first dangerous pattern
`[;&|` ++ "backtick $(){}[]" ++ `]` of `TerminalCommandTool.validateCommand`. -/
def shellMetachars : List Char :=
  [59, 38, 124, 96, 36, 40, 41, 123, 125, 91, 93].map Char.ofNat

/-- Anchored matcher for `rm\s+-rf`: literal `rm`, one or more whitespace,
literal `-rf`.  Greedy `\s+` never needs to backtrack here because `-` is
not whitespace, so consuming the maximal whitespace run is equivalent. -/
def rmRfAt (s : List Char) : Bool :=
  match s with
  | 'r' :: 'm' :: c :: rest =>
    isJsWs c && "-rf".toList.isPrefixOf (rest.dropWhile isJsWs)
  | _ => false

/-- `rm\s+-rf` matched anywhere in the string. -/
def matchRmRf (s : String) : Bool := anyPos rmRfAt s.toList

/-- Anchored matcher for `curl.*-o`: literal `curl`, then `-o` further right
with no line terminator in between (`.` does not cross line terminators). -/
def curlOAt (s : List Char) : Bool :=
  "curl".toList.isPrefixOf s &&
    decide (('-' :: ['o']) <:+: ((s.drop 4).takeWhile (fun c => !isLineTerm c)))

/-- `curl.*-o` matched anywhere in the string. -/
def matchCurlO (s : String) : Bool := anyPos curlOAt s.toList

/-- Anchored matcher for `>\s*\/`: `>` then optional whitespace then `/`.
Greedy `\s*` never backtracks here because `/` is not whitespace. -/
def redirSlashAt (s : List Char) : Bool :=
  match s with
  | '>' :: rest =>
    match rest.dropWhile isJsWs with
    | '/' :: _ => true
    | _ => false
  | _ => false

/-- `>\s*\/` matched anywhere in the string. -/
def matchRedirSlash (s : String) : Bool := anyPos redirSlashAt s.toList

/-- One pass over the `dangerousPatterns` array of
`TerminalCommandTool.validateCommand`: true iff any of the eight regexes
matches the (trimmed) command. -/
def dangerousMatch (s : String) : Bool :=
  s.toList.any (fun c => shellMetachars.contains c) ||
  strContains s ".." ||
  (strContains s "/dev/" || strContains s "/proc/" || strContains s "/sys/") ||
  matchRmRf s ||
  (strContains s "sudo" || strContains s "su") ||
  (strContains s "chmod" || strContains s "chown") ||
  (strContains s "wget" || matchCurlO s) ||
  (matchRedirSlash s || strContains s ">>")

/-- The `allowedCommands` whitelist of `TerminalCommandTool`. -/
def allowedCommands : List String :=
  ["ls", "dir", "pwd", "whoami", "date", "uptime",
   "find", "locate", "which", "type",
   "head", "tail", "cat", "wc", "sort", "uniq",
   "ps", "top", "df", "du", "free",
   "node", "npm", "python", "python3", "java",
   "git"]

/-- `trimmedCommand.split(' ')[0]`: the prefix up to the first space
character (split on the single space character, not general whitespace). -/
def spaceFirstToken (t : String) : String :=
  String.mk (t.toList.takeWhile (fun ch => ch ≠ ' '))

/-- The `{ valid, error? }` shape returned by the validators. -/
structure ValidationResult where
  valid : Bool
  error : Option String
  deriving Repr, DecidableEq

/-- `TerminalCommandTool.validateCommand`: trim, empty check, the dangerous
patterns in order, then the whitelist check on `split(' ')[0]` (the
`baseCommand || 'empty'` fallback mirrors the JS falsy test). -/
def validateCommand (command : String) : ValidationResult :=
  if jsTrim command = "" then ⟨false, some "Command cannot be empty"⟩
  else if dangerousMatch (jsTrim command) = true then
    ⟨false, some "Command contains dangerous patterns"⟩
  else if spaceFirstToken (jsTrim command) = "" ∨
      allowedCommands.contains (spaceFirstToken (jsTrim command)) = false then
    ⟨false, some ("Command '" ++
      (if spaceFirstToken (jsTrim command) = "" then "empty"
       else spaceFirstToken (jsTrim command)) ++ "' is not in the allowed list")⟩
  else ⟨true, none⟩

/-- `TerminalCommandTool.sanitizeCommand`: just a trim. -/
def sanitizeCommand (command : String) : String := jsTrim command

/-- The uniform `ToolResult` shape (`success`, `output`, optional `error`). -/
structure ToolResult where
  success : Bool
  output : String
  error : Option String
  deriving Repr, DecidableEq

/-- The `try { ... } catch (error) { return {success:false, output:'', error} }`
wrapper shared by every tool's `execute`. -/
def runCatch (body : Except String ToolResult) : ToolResult :=
  match body with
  | .ok r => r
  | .error e => ⟨false, "", some e⟩

/-- Key lookup in an association-list model of a JS object / process env. -/
def envLookup (env : List (String × String)) (k : String) : Option String :=
  match env with
  | [] => none
  | (k', v) :: rest => if k' = k then some v else envLookup rest k

/-- The child-process environment built by `TerminalCommandTool.execute`:
`{ ...process.env, PATH: process.env.PATH || '' }` — the object spread keeps
every key of `process.env`, then `PATH` is overridden. -/
def envSetPath (processEnv : List (String × String)) : List (String × String) :=
  (processEnv.filter (fun kv => kv.1 ≠ "PATH")) ++
    [("PATH", (envLookup processEnv "PATH").getD "")]

/-- The options object passed to `execAsync` by `TerminalCommandTool.execute`. -/
structure ExecOptions where
  timeout : Nat
  maxBuffer : Nat
  cwd : String
  env : List (String × String)
  deriving Repr, DecidableEq

/-- `TerminalCommandTool.execute`'s exec options: 30 s timeout, 1 MiB buffer,
`process.cwd()` working directory, and the spread-then-override env. -/
def buildExecOptions (processEnv : List (String × String)) (processCwd : String) :
    ExecOptions :=
  ⟨30000, 1024 * 1024, processCwd, envSetPath processEnv⟩

/-- Does the environment contain only the PATH variable? (The property the
spec asserts of the forwarded environment.) -/
def onlyPathForwarded (env : List (String × String)) : Bool :=
  env.all (fun kv => kv.1 == "PATH")

/-- The `try` block of `TerminalCommandTool.execute`: validate, sanitize,
run (`runner` is the `execAsync` oracle returning `(stdout, stderr)` or a
rejection message), then concatenate stdout with a labeled stderr. -/
def terminalBody (command : String)
    (runner : String → Except String (String × String)) : Except String ToolResult :=
  let v := validateCommand command
  if v.valid = false then Except.error (v.error.getD "")
  else
    match runner (sanitizeCommand command) with
    | .error e => .error e
    | .ok (out, errOut) =>
      .ok ⟨true, out ++ (if errOut = "" then "" else "\nStderr: " ++ errOut), none⟩

/-- `TerminalCommandTool.execute`. -/
def terminalExecute (command : String)
    (runner : String → Except String (String × String)) : ToolResult :=
  runCatch (terminalBody command runner)

/-- `FileSystemGrepTool.sanitizePattern` / `sanitizePath`:
`.replace(/[`$;|&<>()]/g, '\\$&')` — prefix a backslash to each occurrence
of a backtick, `$`, `;`, `|`, `&`, `<`, `>`, `(` or `)`. -/
def sanitizeSet : List Char :=
  [96, 36, 59, 124, 38, 60, 62, 40, 41].map Char.ofNat

/-- `FileSystemGrepTool.sanitizePattern` (identical to `sanitizePath`). -/
def sanitizePattern (p : String) : String :=
  String.mk (p.toList.flatMap (fun c =>
    if sanitizeSet.contains c then ['\\', c] else [c]))

/-- Within a double-quoted shell word, does this interpolated text close the
quote?  A `"` terminates the word unless escaped by a preceding backslash
(inside double quotes a backslash escapes the following `"` or `\`). -/
def breaksOut : List Char → Bool
  | [] => false
  | '\\' :: _ :: rest => breaksOut rest
  | '"' :: _ => true
  | _ :: rest => breaksOut rest

/-- `ext.replace('.', '')`: JS string-argument `replace` removes only the
first occurrence. -/
def removeFirstDot : List Char → List Char
  | [] => []
  | x :: rest => if x = '.' then rest else x :: removeFirstDot rest

/-- The grep command line built by `FileSystemGrepTool.execute`. -/
def grepCommandLine (pattern path : String) (allowedExtensions : List String) :
    String :=
  "grep -r -n -H --include=\"*.\x7b" ++
    String.intercalate "," (allowedExtensions.map
      (fun ext => String.mk (removeFirstDot ext.toList))) ++
    "\x7d\" \"" ++ sanitizePattern pattern ++ "\" \"" ++ sanitizePattern path ++ "\""

/-- `FileSystemGrepTool.validatePath` after `path.resolve`: the `fs.access`
probe is the `exists_` flag (its rejection is the `catch` branch), then the
textual traversal check, then the `startsWith` containment against the two
resolved roots (`process.cwd()` and `config.sandboxDirectory`). -/
def grepValidatePath (absolutePath : String) (exists_ : Bool)
    (resolvedCwd resolvedSandbox : String) : ValidationResult :=
  if exists_ = false then
    ⟨false, some "Path does not exist or is not accessible"⟩
  else if strContains absolutePath ".." || strContains absolutePath "~" then
    ⟨false, some "Path traversal not allowed"⟩
  else if (jsStartsWith absolutePath resolvedCwd ||
           jsStartsWith absolutePath resolvedSandbox) = false then
    ⟨false, some "Access to this path is not allowed"⟩
  else ⟨true, none⟩

/-- The `try` block of `FileSystemGrepTool.execute`. -/
def grepBody (pattern path : String) (resolve : String → String) (exists_ : Bool)
    (resolvedCwd resolvedSandbox : String) (allowedExtensions : List String)
    (runner : String → Except String (String × String)) : Except String ToolResult :=
  let v := grepValidatePath (resolve path) exists_ resolvedCwd resolvedSandbox
  if v.valid = false then Except.error (v.error.getD "")
  else
    match runner (grepCommandLine pattern path allowedExtensions) with
    | .error e => .error e
    | .ok (out, _) =>
      .ok ⟨true, if out = "" then "No matches found" else out, none⟩

/-- `FileSystemGrepTool.execute`. -/
def grepExecute (pattern path : String) (resolve : String → String) (exists_ : Bool)
    (resolvedCwd resolvedSandbox : String) (allowedExtensions : List String)
    (runner : String → Except String (String × String)) : ToolResult :=
  runCatch (grepBody pattern path resolve exists_ resolvedCwd resolvedSandbox
    allowedExtensions runner)

/-- `FolderIndexingTool.validatePath`: stat (existence + kind), traversal
check, `startsWith` containment. -/
def folderValidatePath (absolutePath : String) (statRes : Except String Bool)
    (resolvedCwd resolvedSandbox : String) : ValidationResult :=
  match statRes with
  | .error _ => ⟨false, some "Directory does not exist or is not accessible"⟩
  | .ok isDir =>
    if isDir = false then ⟨false, some "Path is not a directory"⟩
    else if strContains absolutePath ".." || strContains absolutePath "~" then
      ⟨false, some "Path traversal not allowed"⟩
    else if (jsStartsWith absolutePath resolvedCwd ||
             jsStartsWith absolutePath resolvedSandbox) = false then
      ⟨false, some "Access to this directory is not allowed"⟩
    else ⟨true, none⟩

/-- The `try` block of `FolderIndexingTool.execute`.  `lister` models
`listDirectoryContents`, which catches all of its own I/O errors and always
returns a string, hence a total function. -/
def folderBody (path : String) (resolve : String → String)
    (statRes : Except String Bool) (resolvedCwd resolvedSandbox : String)
    (lister : String → String) : Except String ToolResult :=
  let v := folderValidatePath (resolve path) statRes resolvedCwd resolvedSandbox
  if v.valid = false then Except.error (v.error.getD "")
  else .ok ⟨true, lister (resolve path), none⟩

/-- `FolderIndexingTool.execute`. -/
def folderExecute (path : String) (resolve : String → String)
    (statRes : Except String Bool) (resolvedCwd resolvedSandbox : String)
    (lister : String → String) : ToolResult :=
  runCatch (folderBody path resolve statRes resolvedCwd resolvedSandbox lister)

/-- The slice of `fs.Stats` the read tool consults. -/
structure FileStat where
  isFile : Bool
  size : Nat
  mtimeIso : String
  deriving Repr, DecidableEq

/-- Node's `path.extname`: the suffix of the basename from its last `.`;
empty when the basename has no dot past position 0 (dotfiles, `..`). -/
def extname (p : String) : String :=
  let base := (p.toList.reverse.takeWhile (fun c => c ≠ '/')).reverse
  match base with
  | [] => ""
  | b0 :: rest =>
    if b0 = '.' ∧ rest = ['.'] then ""
    else
      let revRest := rest.reverse
      let afterDot := revRest.takeWhile (fun c => c ≠ '.')
      if afterDot.length = revRest.length then ""
      else String.mk ('.' :: afterDot.reverse)

/-- `ReadFileTool.validateFile` after `path.resolve`, in the source's check
order: stat failure, not-a-file, size ceiling, textual traversal, extension
whitelist (empty extension permitted), `startsWith` containment. -/
def readValidateFile (absolutePath : String) (statRes : Except String FileStat)
    (maxFileSize : Nat) (allowedExtensions : List String)
    (resolvedCwd resolvedSandbox : String) : ValidationResult :=
  match statRes with
  | .error _ => ⟨false, some "File does not exist or is not accessible"⟩
  | .ok st =>
    if st.isFile = false then ⟨false, some "Path is not a file"⟩
    else if st.size > maxFileSize then
      ⟨false, some ("File size (" ++ toString st.size ++
        " bytes) exceeds maximum allowed size (" ++ toString maxFileSize ++
        " bytes)")⟩
    else if strContains absolutePath ".." || strContains absolutePath "~" then
      ⟨false, some "Path traversal not allowed"⟩
    else if allowedExtensions.contains (extname absolutePath) = false ∧
        extname absolutePath ≠ "" then
      ⟨false, some ("File extension '" ++ extname absolutePath ++
        "' is not allowed")⟩
    else if (jsStartsWith absolutePath resolvedCwd ||
             jsStartsWith absolutePath resolvedSandbox) = false then
      ⟨false, some "Access to this file location is not allowed"⟩
    else ⟨true, none⟩

/-- Lowercase hex digit. -/
def hexDigit (n : Nat) : Char :=
  if n < 10 then Char.ofNat (48 + n) else Char.ofNat (87 + n)

/-- `Buffer.toString('hex')` over a byte list. -/
def toHex (bs : List Nat) : String :=
  String.mk (bs.flatMap (fun b => [hexDigit ((b % 256) / 16), hexDigit (b % 16)]))

/-- `ReadFileTool.readFileContent`: a UTF-8 read (oracle `utf8Read`) gets a
metadata header; on decode failure fall back to a 200-byte hex preview
(oracle `binRead`); only a failing binary read throws.  The second
`fs.stat` call is modelled as returning the same `st`; `fmtSize` stands in
for the floating-point `formatFileSize`. -/
def readFileContent (absolutePath : String) (st : FileStat)
    (utf8Read : Except String String) (binRead : Except String (List Nat))
    (fmtSize : Nat → String) : Except String String :=
  match utf8Read with
  | .ok content =>
    .ok ("File: " ++ absolutePath ++
      "\nSize: " ++ fmtSize st.size ++
      "\nLast Modified: " ++ st.mtimeIso ++
      "\nExtension: " ++
        (if extname absolutePath = "" then "none" else extname absolutePath) ++
      "\n\n--- File Content ---\n" ++ content)
  | .error _ =>
    match binRead with
    | .ok bytes =>
      .ok ("File: " ++ absolutePath ++
        "\nNote: Binary file detected, showing first 200 bytes as hex:\n\n" ++
        toHex (bytes.take 200) ++
        "\n\n... (file is " ++ toString bytes.length ++ " bytes total)")
    | .error e => .error ("Failed to read file: " ++ e)

/-- The `try` block of `ReadFileTool.execute`: validate, then read. -/
def readBody (filepath : String) (resolve : String → String)
    (statRes : Except String FileStat) (maxFileSize : Nat)
    (allowedExtensions : List String) (resolvedCwd resolvedSandbox : String)
    (utf8Read : Except String String) (binRead : Except String (List Nat))
    (fmtSize : Nat → String) : Except String ToolResult :=
  let abs := resolve filepath
  let v := readValidateFile abs statRes maxFileSize allowedExtensions
    resolvedCwd resolvedSandbox
  if v.valid = false then Except.error (v.error.getD "")
  else
    match statRes with
    | .error e => .error e
    | .ok st =>
      match readFileContent abs st utf8Read binRead fmtSize with
      | .ok content => .ok ⟨true, content, none⟩
      | .error e => .error e

/-- `ReadFileTool.execute`. -/
def readExecute (filepath : String) (resolve : String → String)
    (statRes : Except String FileStat) (maxFileSize : Nat)
    (allowedExtensions : List String) (resolvedCwd resolvedSandbox : String)
    (utf8Read : Except String String) (binRead : Except String (List Nat))
    (fmtSize : Nat → String) : ToolResult :=
  runCatch (readBody filepath resolve statRes maxFileSize allowedExtensions
    resolvedCwd resolvedSandbox utf8Read binRead fmtSize)

/-- The first canned answer of `WebSearchTool.getMockSearchResults`. -/
def mockQueryBestPractices : String :=
  "\n## Splunk Query Best Practices\n\n### Common Search Commands:\n- search: Basic search command\n- stats: Statistical operations\n- timechart: Time-based charting\n- eval: Field evaluation and calculation\n- where: Conditional filtering\n- sort: Result sorting\n- head/tail: Limit results\n\n### Query Structure:\n1. Search terms (index, sourcetype, keywords)\n2. Filtering (where, search)\n3. Field extraction and evaluation (eval, rex)\n4. Aggregation (stats, timechart)\n5. Formatting (sort, head, tail)\n\n### Examples:\n- index=main sourcetype=access_log status=404 | stats count by client_ip\n- index=security sourcetype=firewall action=blocked | timechart count by src_ip\n- index=app_logs error | eval hour=strftime(_time, \"%H\") | stats count by hour\n      "

/-- The second canned answer of `WebSearchTool.getMockSearchResults`. -/
def mockSplGuide : String :=
  "\n## Splunk Search Processing Language (SPL) Guide\n\n### Field Extraction:\n- rex: Regular expression extraction\n- extract: Automatic field extraction\n- eval: Create calculated fields\n\n### Aggregation Functions:\n- count, sum, avg, min, max\n- dc (distinct count)\n- values, list\n- percentile\n\n### Time Functions:\n- strftime, strptime\n- earliest, latest\n- bucket, span\n      "

/-- `WebSearchTool.getMockSearchResults`. -/
def getMockSearchResults (query : String) : String :=
  let lowerQuery := jsToLower query
  if strContains lowerQuery "splunk" && strContains lowerQuery "query" then
    mockQueryBestPractices
  else if strContains lowerQuery "spl" ||
      strContains lowerQuery "search processing language" then
    mockSplGuide
  else
    "Mock search results for query: \"" ++ query ++
      "\". In production, this would return real web search results about Splunk queries and best practices."

/-- `WebSearchTool.execute`: the mock responder has no failure source. -/
def webSearchExecute (query : String) : ToolResult :=
  ⟨true, getMockSearchResults query, none⟩

/-- The characters after the first occurrence of `pat` in `s`, or `none`
when `pat` does not occur (leftmost match of an anchored literal). -/
def splitAtFirst (pat : List Char) : List Char → Option (List Char)
  | [] => if pat = [] then some [] else none
  | c :: rest =>
    if pat.isPrefixOf (c :: rest) then some ((c :: rest).drop pat.length)
    else splitAtFirst pat rest

/-- The characters of `s` up to (excluding) the first occurrence of `pat`,
or all of `s` when `pat` does not occur: the lazy capture
`(.*?)(?=pat|$)` with the `s` flag. -/
def takeUntilSub (pat : List Char) : List Char → List Char
  | [] => []
  | c :: rest =>
    if pat.isPrefixOf (c :: rest) then [] else c :: takeUntilSub pat rest

/-- The capture group of `/QUERY:\s*(.*?)(?=\n\nEXPLANATION:|$)/s`: at the
first `QUERY:` label, the greedy `\s*` takes the maximal whitespace run
(backtracking never helps because the lazy group can always reach `$`),
then the lazy group stops at the first `\n\nEXPLANATION:` or the end. -/
def queryCapture (response : String) : Option (List Char) :=
  match splitAtFirst ("QUERY:".toList) response.toList with
  | none => none
  | some rest => some (takeUntilSub ("\n\nEXPLANATION:".toList)
      (rest.dropWhile isJsWs))

/-- The capture group of `/EXPLANATION:\s*(.*?)$/s`: everything after the
first `EXPLANATION:` label and subsequent whitespace (with the `s` flag,
`$` only matches at the very end, so the lazy group is forced to the end). -/
def explanationCapture (response : String) : Option (List Char) :=
  match splitAtFirst ("EXPLANATION:".toList) response.toList with
  | none => none
  | some rest => some (rest.dropWhile isJsWs)

/-- `SplunkQueryAgent.parseQueryResponse`: a missing or empty-after-trim
query capture falls back to the trimmed response (`|| response.trim()`); a
missing or empty explanation capture falls back to the fixed marker. -/
def parseQueryResponse (response : String) : String × String :=
  (match queryCapture response with
   | none => jsTrim response
   | some g =>
     if jsTrimList g = [] then jsTrim response else String.mk (jsTrimList g),
   match explanationCapture response with
   | none => "No explanation provided"
   | some g =>
     if jsTrimList g = [] then "No explanation provided"
     else String.mk (jsTrimList g))

/-- Opaque tool-parameter mapping (`Record<string, any>`). -/
def Params : Type := List (String × String)

/-- The `ToolCall` audit record. -/
structure ToolCallRec where
  tool_name : String
  parameters : List (String × String)
  output : String

/-- The `QueryResponse` shape of the agent. -/
structure QueryResponse where
  status : String
  query : Option String
  explanation : Option String
  tool_calls : Option (List ToolCallRec)
  error_message : Option String

/-- The shape of `JSON.parse(toolDecisionResponse).tools`: the string
`"none"`, an array of tool specs, or anything else (`Array.isArray` false). -/
inductive ToolsField
  | noneStr : ToolsField
  | arr : List (String × List (String × String)) → ToolsField
  | other : ToolsField

/-- `SplunkQueryAgent.buildFinalQueryPrompt`. -/
def buildFinalQueryPrompt (userPrompt additionalContext : String) : String :=
  "Generate a Splunk query for: " ++ userPrompt ++
    (if additionalContext = "" then ""
     else "\n\nAdditional context from tools:" ++ additionalContext) ++
    "\n\nProvide the response in the exact format:\nQUERY: [Your SPL query]\n\nEXPLANATION: [Your explanation]"

/-- The tool-dispatch loop of `SplunkQueryAgent.runQueryGeneration`: for each
spec whose name resolves in the registry, execute it, record a `ToolCall`
with the result's output regardless of outcome, and append successful
outputs (labeled by tool name) to the additional-context buffer.  Returns
(additional context, tool calls, invocations actually executed). -/
def dispatchTools (registry : String → Option (List (String × String) → ToolResult))
    (specs : List (String × List (String × String))) :
    String × List ToolCallRec × List (String × List (String × String)) :=
  specs.foldl
    (fun acc spec =>
      match registry spec.1 with
      | none => acc
      | some tool =>
        let r := tool spec.2
        (acc.1 ++ (if r.success then
            "\n\n--- " ++ spec.1 ++ " Output ---\n" ++ r.output else ""),
         acc.2.1 ++ [⟨spec.1, spec.2, r.output⟩],
         acc.2.2 ++ [spec]))
    ("", [], [])

/-- What one run of `SplunkQueryAgent.runQueryGeneration` produced: the
response, the tool invocations actually executed, and the prompt handed to
the final model call. -/
structure RunOutcome where
  response : QueryResponse
  executed : List (String × List (String × String))
  finalPrompt : String

/-- `SplunkQueryAgent.runQueryGeneration`: `decision` is the outcome of
`JSON.parse` on the model's tool-selection text (`.error` = unparseable,
caught by the surrounding `try`); `llm2` is the final model call.  A parse
failure, a `"none"` answer, or a non-array `tools` field all skip dispatch;
the final generation always proceeds and the response status is success. -/
def runQueryGeneration (decision : Except String ToolsField)
    (registry : String → Option (List (String × String) → ToolResult))
    (userPrompt : String) (llm2 : String → String) : RunOutcome :=
  let step :=
    match decision with
    | .error _ => ("", [], [])
    | .ok .noneStr => ("", [], [])
    | .ok .other => ("", [], [])
    | .ok (.arr specs) => dispatchTools registry specs
  let additionalContext := step.1
  let toolCalls := step.2.1
  let finalPrompt := buildFinalQueryPrompt userPrompt additionalContext
  let qe := parseQueryResponse (llm2 finalPrompt)
  { response :=
      { status := "success", query := some qe.1, explanation := some qe.2,
        tool_calls := if toolCalls.length > 0 then some toolCalls else none,
        error_message := none },
    executed := step.2.2,
    finalPrompt := finalPrompt }

/-- The spec's directory-boundary-aware prefix match, stated from the
spec's words (for comparison with the source's plain `startsWith`): the
path is the root itself or lies strictly under it. -/
def specBoundaryAwarePrefix (root p : String) : Bool :=
  p == root || jsStartsWith p (root ++ "/")

/-- The claim's first whitespace-delimited token, stated from the claim's
words (for comparison with the source's space-only `split(' ')[0]`). -/
def specWhitespaceFirstToken (command : String) : String :=
  String.mk ((jsTrim command).toList.takeWhile (fun c => isJsWs c = false))

/-! ### Helper lemmas -/

/-- An infix whose first character survives `dropWhile` is preserved. -/
theorem infix_dropWhile_of_head_not (pr : Char → Bool) (pat l : List Char)
    (h : pat <:+: l) (hhd : ∀ c, pat.head? = some c → pr c = false) :
    pat <:+: l.dropWhile pr := by
  induction l with
  | nil =>
    rw [List.infix_nil] at h
    subst h
    exact List.nil_infix
  | cons c t ih =>
    by_cases hc : pr c = true
    · rw [List.dropWhile_cons_of_pos hc]
      rcases List.infix_cons_iff.mp h with hp | hi
      · cases pat with
        | nil => exact List.nil_infix
        | cons p0 ps =>
          rcases List.cons_prefix_cons.mp hp with ⟨rfl, _⟩
          exact absurd hc (by simp [hhd p0 rfl])
      · exact ih hi
    · rw [List.dropWhile_cons_of_neg hc]
      exact h

/-- The substring `su` survives `jsTrimList` (neither `s` nor `u` is
whitespace, so trimming cannot touch it). -/
theorem su_infix_jsTrimList (l : List Char) (h : ['s', 'u'] <:+: l) :
    ['s', 'u'] <:+: jsTrimList l := by
  have h1 : ['s', 'u'] <:+: l.dropWhile isJsWs :=
    infix_dropWhile_of_head_not isJsWs _ _ h
      (by intro c hc; simp at hc; subst hc; decide)
  have h2 : ['u', 's'] <:+: (l.dropWhile isJsWs).reverse := by
    simpa using List.reverse_infix.mpr h1
  have h3 : ['u', 's'] <:+: (l.dropWhile isJsWs).reverse.dropWhile isJsWs :=
    infix_dropWhile_of_head_not isJsWs _ _ h2
      (by intro c hc; simp at hc; subst hc; decide)
  simpa [jsTrimList] using List.reverse_infix.mpr h3

/-- `splitAtFirst` finds nothing when the pattern does not occur. -/
theorem splitAtFirst_eq_none (pat l : List Char) (h : ¬ pat <:+: l) :
    splitAtFirst pat l = none := by
  induction l with
  | nil =>
    unfold splitAtFirst
    split
    · rename_i hp
      exact absurd (hp ▸ List.nil_infix) h
    · rfl
  | cons c t ih =>
    unfold splitAtFirst
    split
    · rename_i hp
      exact absurd (List.isPrefixOf_iff_prefix.mp hp).isInfix h
    · exact ih (fun hi => h (List.infix_cons hi))

/-- `runCatch` either passes through the `try` block's result or converts
the thrown message into a failing `ToolResult`. -/
theorem runCatch_spec (b : Except String ToolResult) :
    (∃ r, b = .ok r ∧ runCatch b = r) ∨
    (∃ e, b = .error e ∧ runCatch b = ⟨false, "", some e⟩) := by
  cases b with
  | ok r => exact Or.inl ⟨r, rfl, rfl⟩
  | error e => exact Or.inr ⟨e, rfl, rfl⟩

/-- The `success=false ⇒ output empty; success=true ⇒ error absent`
invariant of `ToolResult`. -/
def resultInvariant (r : ToolResult) : Prop :=
  (r.success = true ∧ r.error = none) ∨ (r.success = false ∧ r.output = "")

/-- If a `try` block only ever succeeds with `success=true` and no error
field, its `runCatch` wrapper satisfies the `ToolResult` invariant. -/
theorem runCatch_invariant (b : Except String ToolResult)
    (hok : ∀ r, b = .ok r → r.success = true ∧ r.error = none) :
    resultInvariant (runCatch b) := by
  cases b with
  | ok r => exact Or.inl (hok r rfl)
  | error e => exact Or.inr ⟨rfl, rfl⟩

/-- `terminalBody` only succeeds with `success=true` and no error field. -/
theorem terminalBody_ok (c : String)
    (runner : String → Except String (String × String)) (r : ToolResult)
    (h : terminalBody c runner = .ok r) : r.success = true ∧ r.error = none := by
  unfold terminalBody at h
  by_cases hv : (validateCommand c).valid = false
  · simp [hv] at h
  · cases hr : runner (sanitizeCommand c) with
    | error e => simp [hv, hr] at h
    | ok p =>
      obtain ⟨out, errOut⟩ := p
      simp [hv, hr] at h
      exact h ▸ ⟨rfl, rfl⟩

/-- `grepBody` only succeeds with `success=true` and no error field. -/
theorem grepBody_ok (pattern path : String) (resolve : String → String)
    (exists_ : Bool) (cwd sb : String) (exts : List String)
    (runner : String → Except String (String × String)) (r : ToolResult)
    (h : grepBody pattern path resolve exists_ cwd sb exts runner = .ok r) :
    r.success = true ∧ r.error = none := by
  unfold grepBody at h
  by_cases hv : (grepValidatePath (resolve path) exists_ cwd sb).valid = false
  · simp [hv] at h
  · cases hr : runner (grepCommandLine pattern path exts) with
    | error e => simp [hv, hr] at h
    | ok p =>
      obtain ⟨out, errOut⟩ := p
      simp [hv, hr] at h
      exact h ▸ ⟨rfl, rfl⟩

/-- `folderBody` only succeeds with `success=true` and no error field. -/
theorem folderBody_ok (path : String) (resolve : String → String)
    (statRes : Except String Bool) (cwd sb : String) (lister : String → String)
    (r : ToolResult)
    (h : folderBody path resolve statRes cwd sb lister = .ok r) :
    r.success = true ∧ r.error = none := by
  unfold folderBody at h
  by_cases hv : (folderValidatePath (resolve path) statRes cwd sb).valid = false
  · simp [hv] at h
  · simp [hv] at h
    exact h ▸ ⟨rfl, rfl⟩

/-- `readBody` only succeeds with `success=true` and no error field. -/
theorem readBody_ok (fp : String) (resolve : String → String)
    (statRes : Except String FileStat) (maxFS : Nat) (exts : List String)
    (cwd sb : String) (u : Except String String) (b : Except String (List Nat))
    (f : Nat → String) (r : ToolResult)
    (h : readBody fp resolve statRes maxFS exts cwd sb u b f = .ok r) :
    r.success = true ∧ r.error = none := by
  unfold readBody at h
  by_cases hv : (readValidateFile (resolve fp) statRes maxFS exts cwd sb).valid = false
  · simp [hv] at h
  · cases statRes with
    | error e => simp [hv] at h
    | ok st =>
      cases hrc : readFileContent (resolve fp) st u b f with
      | error e => simp [hv, hrc] at h
      | ok content =>
        simp [hv, hrc] at h
        exact h ▸ ⟨rfl, rfl⟩

/-! ### Claim theorems -/

/-- C1 (code evaluated at the failing input): the exec options do bound the
timeout (30 s), the output buffer (1 MiB) and the working directory, but the
environment `{...process.env, PATH: ...}` spreads the whole process
environment into the child — here a secret variable is forwarded alongside
PATH, so the environment does not forward only the execution search path. -/
theorem C1_env_spread_forwards_secrets :
    (buildExecOptions [("PATH", "/usr/bin"), ("AWS_SECRET_ACCESS_KEY", "s3cr3t")]
      "/workdir").timeout = 30000 ∧
    (buildExecOptions [("PATH", "/usr/bin"), ("AWS_SECRET_ACCESS_KEY", "s3cr3t")]
      "/workdir").maxBuffer = 1048576 ∧
    (buildExecOptions [("PATH", "/usr/bin"), ("AWS_SECRET_ACCESS_KEY", "s3cr3t")]
      "/workdir").cwd = "/workdir" ∧
    envLookup (buildExecOptions [("PATH", "/usr/bin"),
      ("AWS_SECRET_ACCESS_KEY", "s3cr3t")] "/workdir").env "AWS_SECRET_ACCESS_KEY" =
      some "s3cr3t" ∧
    onlyPathForwarded (buildExecOptions [("PATH", "/usr/bin"),
      ("AWS_SECRET_ACCESS_KEY", "s3cr3t")] "/workdir").env = false := by
  decide

/-- C2 counterexample: a canonical path under the sibling directory
`/app/workdata`, whose name merely extends the root `/app/work` as a string
prefix, passes validation (plain `startsWith`), although it is not a
directory-boundary-aware prefix match of either configured root — so the
claim's required rejection does not happen. -/
theorem C2_sibling_prefix_accepted :
    grepValidatePath "/app/workdata/secret.txt" true "/app/work" "/tmp/sbx" =
      ⟨true, none⟩ ∧
    specBoundaryAwarePrefix "/app/work" "/app/workdata/secret.txt" = false ∧
    specBoundaryAwarePrefix "/tmp/sbx" "/app/workdata/secret.txt" = false := by
  decide

/-- C2 amended: for a canonical path free of the textual traversal markers,
validation fails with the outside-sandbox error exactly when the path is
not a plain string prefix extension (`startsWith`) of some configured root;
the match is not directory-boundary aware.  Stated for the grep tool's
`validatePath` and, when the earlier file checks pass, for the read tool's
`validateFile`. -/
theorem C2_plain_prefix_containment (p cwd sb : String)
    (h1 : strContains p ".." = false) (h2 : strContains p "~" = false) :
    (grepValidatePath p true cwd sb =
      if jsStartsWith p cwd || jsStartsWith p sb then ⟨true, none⟩
      else ⟨false, some "Access to this path is not allowed"⟩) ∧
    (∀ (st : FileStat) (maxFS : Nat) (exts : List String),
      st.isFile = true → st.size ≤ maxFS →
      (exts.contains (extname p) = true ∨ extname p = "") →
      readValidateFile p (.ok st) maxFS exts cwd sb =
        if jsStartsWith p cwd || jsStartsWith p sb then ⟨true, none⟩
        else ⟨false, some "Access to this file location is not allowed"⟩) := by
  constructor
  · cases hb : jsStartsWith p cwd || jsStartsWith p sb <;>
      simp [grepValidatePath, h1, h2, hb]
  · intro st maxFS exts hf hs hext
    have hns : ¬ st.size > maxFS := by omega
    rcases hext with hx | hx
    · have hx' : extname p ∈ exts := by simpa using hx
      cases hb : jsStartsWith p cwd || jsStartsWith p sb <;>
        simp [readValidateFile, h1, h2, hf, hns, hb, hx']
    · cases hb : jsStartsWith p cwd || jsStartsWith p sb <;>
        simp [readValidateFile, h1, h2, hf, hns, hb, hx]

/-- C2 amended witness at a concrete contained path. -/
theorem C2_plain_prefix_containment_witness :
    grepValidatePath "/sb/a.txt" true "/cwd" "/sb" = ⟨true, none⟩ ∧
    readValidateFile "/sb/a.txt" (.ok ⟨true, 5, "m"⟩) 10 [".txt"] "/cwd" "/sb" =
      ⟨true, none⟩ := by
  have h := C2_plain_prefix_containment "/sb/a.txt" "/cwd" "/sb"
    (by decide) (by decide)
  constructor
  · rw [h.1]; decide
  · rw [h.2 ⟨true, 5, "m"⟩ 10 [".txt"] (by decide) (by decide)
      (Or.inl (by decide))]
    decide

/-- C3 counterexample: `ls` followed by a tab and an argument.  Its first
whitespace-delimited token `ls` is allow-listed, the trimmed command is
non-empty and no dangerous pattern matches, so the claim as stated says it
is valid; the code splits only on the space character, takes the whole
string as the base command, and rejects it. -/
theorem C3_tab_separated_rejected :
    (validateCommand "ls\tfile").valid = false ∧
    jsTrim "ls\tfile" ≠ "" ∧
    dangerousMatch (jsTrim "ls\tfile") = false ∧
    allowedCommands.contains (specWhitespaceFirstToken "ls\tfile") = true := by
  decide

/-- C3 amended: command validation returns valid exactly when the trimmed
command is non-empty, matches none of the fixed dangerous patterns, and its
first space-delimited token (`split(' ')[0]`, the prefix up to the first
space character, not general whitespace) is a member of the allow-list. -/
theorem C3_valid_iff (c : String) :
    (validateCommand c).valid = true ↔
      (jsTrim c ≠ "" ∧ dangerousMatch (jsTrim c) = false ∧
       spaceFirstToken (jsTrim c) ∈ allowedCommands) := by
  unfold validateCommand
  by_cases h1 : jsTrim c = ""
  · simp [h1]
  · by_cases h2 : dangerousMatch (jsTrim c) = true
    · simp [h1, h2]
    · rw [Bool.not_eq_true] at h2
      by_cases h4 : spaceFirstToken (jsTrim c) ∈ allowedCommands
      · have hbase : spaceFirstToken (jsTrim c) ≠ "" := by
          intro hb
          rw [hb] at h4
          exact absurd h4 (by decide)
        simp [h1, h2, h4, hbase]
      · simp [h1, h2, h4]

/-- C4 (code evaluated at the failing input): the sanitizer's character
class omits the double quote, so a pattern consisting of a single `"` is
interpolated unchanged into the double-quoted grep argument and terminates
the quote — not every quote-terminating character is escaped. -/
theorem C4_double_quote_unescaped :
    sanitizePattern "\"" = "\"" ∧
    breaksOut (sanitizePattern "\"").toList = true ∧
    breaksOut (sanitizePattern "a$(b)`;|&<>").toList = false := by
  decide

/-- C5: every tool's `execute` is the `runCatch` image of its `try` block —
it always returns a `ToolResult`, passing a successful body through and
converting every thrown failure (validation or execution) into
`success=false`, empty output, and the error message; the web-search mock
has no failure source and always succeeds. -/
theorem C5_execute_never_raises :
    (∀ (c : String) (runner : String → Except String (String × String)),
      (∃ r, terminalBody c runner = .ok r ∧ terminalExecute c runner = r) ∨
      (∃ e, terminalBody c runner = .error e ∧
        terminalExecute c runner = ⟨false, "", some e⟩)) ∧
    (∀ (pattern path : String) (resolve : String → String) (exists_ : Bool)
        (cwd sb : String) (exts : List String)
        (runner : String → Except String (String × String)),
      (∃ r, grepBody pattern path resolve exists_ cwd sb exts runner = .ok r ∧
        grepExecute pattern path resolve exists_ cwd sb exts runner = r) ∨
      (∃ e, grepBody pattern path resolve exists_ cwd sb exts runner = .error e ∧
        grepExecute pattern path resolve exists_ cwd sb exts runner =
          ⟨false, "", some e⟩)) ∧
    (∀ (path : String) (resolve : String → String) (statRes : Except String Bool)
        (cwd sb : String) (lister : String → String),
      (∃ r, folderBody path resolve statRes cwd sb lister = .ok r ∧
        folderExecute path resolve statRes cwd sb lister = r) ∨
      (∃ e, folderBody path resolve statRes cwd sb lister = .error e ∧
        folderExecute path resolve statRes cwd sb lister = ⟨false, "", some e⟩)) ∧
    (∀ (fp : String) (resolve : String → String) (statRes : Except String FileStat)
        (maxFS : Nat) (exts : List String) (cwd sb : String)
        (u : Except String String) (b : Except String (List Nat)) (f : Nat → String),
      (∃ r, readBody fp resolve statRes maxFS exts cwd sb u b f = .ok r ∧
        readExecute fp resolve statRes maxFS exts cwd sb u b f = r) ∨
      (∃ e, readBody fp resolve statRes maxFS exts cwd sb u b f = .error e ∧
        readExecute fp resolve statRes maxFS exts cwd sb u b f =
          ⟨false, "", some e⟩)) ∧
    (∀ q : String, webSearchExecute q = ⟨true, getMockSearchResults q, none⟩) :=
  ⟨fun c runner => runCatch_spec (terminalBody c runner),
   fun pattern path resolve exists_ cwd sb exts runner =>
     runCatch_spec (grepBody pattern path resolve exists_ cwd sb exts runner),
   fun path resolve statRes cwd sb lister =>
     runCatch_spec (folderBody path resolve statRes cwd sb lister),
   fun fp resolve statRes maxFS exts cwd sb u b f =>
     runCatch_spec (readBody fp resolve statRes maxFS exts cwd sb u b f),
   fun _ => rfl⟩

/-- C6: when the stat result reports a regular file whose size exceeds the
configured ceiling, the read tool fails with the size-specific validation
message for every possible reader oracle — the equality holds uniformly in
`u` and `b`, so the file's content is never consulted. -/
theorem C6_oversize_read_rejected (fp : String) (resolve : String → String)
    (st : FileStat) (maxFS : Nat) (exts : List String) (cwd sb : String)
    (u : Except String String) (b : Except String (List Nat)) (f : Nat → String)
    (h1 : st.isFile = true) (h2 : st.size > maxFS) :
    readExecute fp resolve (.ok st) maxFS exts cwd sb u b f =
      ⟨false, "", some ("File size (" ++ toString st.size ++
        " bytes) exceeds maximum allowed size (" ++ toString maxFS ++
        " bytes)")⟩ := by
  simp [readExecute, readBody, readValidateFile, runCatch, h1, h2]

/-- C6 witness: an 11-byte file against a 10-byte ceiling. -/
theorem C6_oversize_read_rejected_witness :
    readExecute "f.txt" (fun s => s) (.ok ⟨true, 11, "t"⟩) 10 [".txt"] "/c" "/s"
        (.ok "x") (.ok []) (fun _ => "sz") =
      ⟨false, "", some ("File size (" ++ toString (11 : Nat) ++
        " bytes) exceeds maximum allowed size (" ++ toString (10 : Nat) ++
        " bytes)")⟩ :=
  C6_oversize_read_rejected "f.txt" (fun s => s) ⟨true, 11, "t"⟩ 10 [".txt"]
    "/c" "/s" (.ok "x") (.ok []) (fun _ => "sz") rfl (by decide)

/-- C7: when the tool-selection output is unparseable (`JSON.parse` throws),
no tool is executed, no tool-call record is attached, the final generation
still runs on the prompt with an empty additional-context buffer, and the
response status is success. -/
theorem C7_unparseable_decision_skips_tools (msg userPrompt : String)
    (registry : String → Option (List (String × String) → ToolResult))
    (llm2 : String → String) :
    (runQueryGeneration (Except.error msg) registry userPrompt llm2).executed = [] ∧
    (runQueryGeneration (Except.error msg) registry userPrompt llm2).finalPrompt =
      buildFinalQueryPrompt userPrompt "" ∧
    (runQueryGeneration (Except.error msg) registry userPrompt llm2).response.status =
      "success" ∧
    (runQueryGeneration (Except.error msg) registry userPrompt llm2).response.tool_calls =
      none ∧
    (runQueryGeneration (Except.error msg) registry userPrompt llm2).response.error_message =
      none :=
  ⟨rfl, rfl, rfl, rfl, rfl⟩

/-- C8 counterexample: for a response with no `QUERY:` label and trailing
whitespace, the parsed query is the trimmed response, not the full raw
model output, so the claim's fallback statement fails as written. -/
theorem C8_fallback_is_trimmed :
    strContains "hello " "QUERY:" = false ∧
    (parseQueryResponse "hello ").1 ≠ "hello " := by
  decide

/-- C8 amended: parsing the final output never fails — when the explanation
label is absent the explanation is the fixed `No explanation provided`
marker, and when the query label is absent the query falls back to the
trimmed full raw model output. -/
theorem C8_label_fallbacks (r : String) :
    (strContains r "EXPLANATION:" = false →
      (parseQueryResponse r).2 = "No explanation provided") ∧
    (strContains r "QUERY:" = false →
      (parseQueryResponse r).1 = jsTrim r) := by
  constructor
  · intro h
    have h' : explanationCapture r = none := by
      unfold explanationCapture
      rw [splitAtFirst_eq_none _ _ (by simpa [strContains] using h)]
    simp [parseQueryResponse, h']
  · intro h
    have h' : queryCapture r = none := by
      unfold queryCapture
      rw [splitAtFirst_eq_none _ _ (by simpa [strContains] using h)]
    simp [parseQueryResponse, h']

/-- C8 amended witness on a label-free response. -/
theorem C8_label_fallbacks_witness :
    strContains "abc" "EXPLANATION:" = false ∧
    strContains "abc" "QUERY:" = false ∧
    (parseQueryResponse "abc").2 = "No explanation provided" ∧
    (parseQueryResponse "abc").1 = jsTrim "abc" :=
  ⟨by decide, by decide,
   (C8_label_fallbacks "abc").1 (by decide),
   (C8_label_fallbacks "abc").2 (by decide)⟩

/-- C9: every `ToolResult` any of the five tools can produce satisfies the
invariant: failure implies empty output, success implies no error field. -/
theorem C9_toolresult_invariant :
    (∀ (c : String) (runner : String → Except String (String × String)),
      resultInvariant (terminalExecute c runner)) ∧
    (∀ (pattern path : String) (resolve : String → String) (exists_ : Bool)
        (cwd sb : String) (exts : List String)
        (runner : String → Except String (String × String)),
      resultInvariant (grepExecute pattern path resolve exists_ cwd sb exts runner)) ∧
    (∀ (path : String) (resolve : String → String) (statRes : Except String Bool)
        (cwd sb : String) (lister : String → String),
      resultInvariant (folderExecute path resolve statRes cwd sb lister)) ∧
    (∀ (fp : String) (resolve : String → String) (statRes : Except String FileStat)
        (maxFS : Nat) (exts : List String) (cwd sb : String)
        (u : Except String String) (b : Except String (List Nat)) (f : Nat → String),
      resultInvariant (readExecute fp resolve statRes maxFS exts cwd sb u b f)) ∧
    (∀ q : String, resultInvariant (webSearchExecute q)) :=
  ⟨fun c runner =>
     runCatch_invariant _ (fun r h => terminalBody_ok c runner r h),
   fun pattern path resolve exists_ cwd sb exts runner =>
     runCatch_invariant _
       (fun r h => grepBody_ok pattern path resolve exists_ cwd sb exts runner r h),
   fun path resolve statRes cwd sb lister =>
     runCatch_invariant _
       (fun r h => folderBody_ok path resolve statRes cwd sb lister r h),
   fun fp resolve statRes maxFS exts cwd sb u b f =>
     runCatch_invariant _
       (fun r h => readBody_ok fp resolve statRes maxFS exts cwd sb u b f r h),
   fun _ => Or.inl ⟨rfl, rfl⟩⟩

/-- C10: any command containing the two-character substring `su` anywhere —
even inside a longer word such as `results.txt` — trips the `sudo|su`
dangerous pattern, which is checked before the allow-list, so validation
rejects it with the dangerous-pattern error. -/
theorem C10_su_substring_rejected (c : String)
    (h : strContains c "su" = true) :
    validateCommand c = ⟨false, some "Command contains dangerous patterns"⟩ := by
  have hin : ['s', 'u'] <:+: c.toList := by simpa [strContains] using h
  have hsu : ['s', 'u'] <:+: jsTrimList c.toList := su_infix_jsTrimList c.toList hin
  have hc2 : strContains (jsTrim c) "su" = true := by
    simp only [strContains, decide_eq_true_eq]
    exact hsu
  have hd : dangerousMatch (jsTrim c) = true := by
    simp [dangerousMatch, hc2]
  have hne : jsTrim c ≠ "" := by
    intro he
    rw [he] at hc2
    exact absurd hc2 (by decide)
  simp [validateCommand, hne, hd]

/-- C10 witness: `ls results.txt` has an allow-listed leading token but
contains `su` inside `results`, and is rejected as dangerous. -/
theorem C10_su_substring_rejected_witness :
    strContains "ls results.txt" "su" = true ∧
    validateCommand "ls results.txt" =
      ⟨false, some "Command contains dangerous patterns"⟩ :=
  ⟨by decide, C10_su_substring_rejected "ls results.txt" (by decide)⟩

end SplunkHiveMind
